import Mathlib

/-!
Shallow embedding of the retrying HTTP executor (`httpx.go`, `client.Do`,
`client.shouldRetry`, `client.waitBeforeRetry`) and of the body-preserving
logging interceptor (`logger` package: `readBody`, `logRequest`,
`logResponse`, `LoggingRoundTripper.RoundTrip`).

Conventions of the embedding:
- Go `int` / `int64` / `time.Duration` values are modelled as `Int`, with
  64-bit wraparound made explicit (`wrap64`) exactly where the Go code
  performs arithmetic that can overflow.
- A body stream is modelled by the result of reading it to completion:
  `Except Unit (List Nat)` (error, or the byte list it yields).
  `Option (Except Unit (List Nat))` models a possibly-nil `io.ReadCloser`.
- The underlying transport (`c.HttpClient.Do`, i.e. the round-trip
  capability) is an oracle `Nat → TransportResult` giving the outcome of
  the invocation made on each attempt number.
- Context cancellation is an oracle `Nat → Bool`: whether the caller's
  cancellation signal fires before the backoff timer elapses during the
  wait that follows the given attempt (the `select` in `waitBeforeRetry`).
- Executions are reified as event traces so that claims about how often a
  stream is read, what bytes each transport invocation observes, and what
  happens after a cancelled wait are all statements about the trace.
-/

namespace Httpx

/-- Wraparound of an integer to the signed 64-bit range, the semantics of
Go `int64` (and of `int` on 64-bit platforms) arithmetic. -/
def wrap64 (x : Int) : Int := (x + 2 ^ 63) % 2 ^ 64 - 2 ^ 63

/-- Defaults from `httpx.go` (`time.Duration` values in nanoseconds). -/
def defaultRetries : Int := 1

def defaultRetryDelay : Int := 100000000

def defaultMaxRetryWait : Int := 5000000000

/-- Embedding of `client.shouldRetry` from `httpx.go`: retry on 429
(TooManyRequests), 408 (RequestTimeout), and any 5xx. -/
def shouldRetry (statusCode : Int) : Bool :=
  statusCode == 429 || statusCode == 408 ||
    (decide (500 ≤ statusCode) && decide (statusCode < 600))

/-- The delay computed by `client.waitBeforeRetry` and handed to
`time.After`: `delay := c.RetryDelay * time.Duration(1<<uint(attempt-1))`,
then capped at `c.MaxRetryWait`.  The Go shift `1 << s` on `int` equals
`wrap64 (2 ^ s)` (repeated doubling with wraparound), and the product is
again `int64` arithmetic, hence the outer `wrap64`. -/
def waitBeforeRetryDelay (retryDelay maxRetryWait : Int) (attempt : Nat) : Int :=
  let delay := wrap64 (retryDelay * wrap64 (2 ^ (attempt - 1)))
  if delay > maxRetryWait then maxRetryWait else delay

/-- Outcome of one invocation of the wrapped transport capability
(`c.HttpClient.Do`): a response with a status code, or a transport error. -/
inductive TransportResult where
  | ok (status : Int)
  | err
  deriving DecidableEq, Repr

/-- Observable events of one execution of `client.Do`. -/
inductive Event where
  /-- Reading the caller-supplied stream via `io.ReadAll(req.Body)`
  (`none` = the read failed). -/
  | readBody (result : Option (List Nat))
  /-- One invocation of the transport capability: attempt number, the
  contents of the body stream attached to the request for this attempt
  (`none` = no body), and the outcome. -/
  | transportCall (attempt : Nat) (body : Option (List Nat)) (result : TransportResult)
  /-- Closing (`resp.Body.Close()`) a response that will not be returned. -/
  | closeRespBody (attempt : Nat)
  /-- The wait in `waitBeforeRetry` after the given attempt, with the
  computed delay and whether the cancellation signal fired before the
  timer (`select` taking the `ctx.Done()` branch). -/
  | wait (attempt : Nat) (delay : Int) (ctxFired : Bool)
  deriving DecidableEq, Repr

/-- Result of `client.Do`: a response together with a nil error, or a nil
response together with a non-nil error.  `errAttempts n wrapped` stands
for `fmt.Errorf("request failed after %d attempts: %w", n, lastErr)` when
`wrapped = true` and for
`fmt.Errorf("request failed after %d attempts with unknown error", n)`
when `wrapped = false`; `errBodyRead` stands for
`fmt.Errorf("failed to read request body: %w", err)`. -/
inductive DoOutcome where
  | resp (attempt : Nat) (status : Int)
  | errBodyRead
  | errAttempts (retries : Int) (wrappedLastErr : Bool)
  deriving DecidableEq, Repr

/-- The retry loop of `client.Do` (`for attempt := 1; attempt <= c.Retries;
attempt++`).  `fuel` is the number of loop iterations left; `Do` passes
`retries.toNat`, which makes the fuel run out exactly when the Go loop
guard `attempt <= c.Retries` fails.  `lastErrSet` tracks `lastErr != nil`.
Running out of fuel is the loop falling through to the code after it. -/
def doLoop (retries retryDelay maxRetryWait : Int)
    (transport : Nat → TransportResult) (ctxDone : Nat → Bool)
    (bodyBytes : Option (List Nat)) (lastErrSet : Bool) (attempt : Nat) :
    Nat → List Event × DoOutcome
  | 0 => ([], .errAttempts retries lastErrSet)
  | fuel + 1 =>
    match transport attempt with
    | .err =>
      if (attempt : Int) ≥ retries then
        ([.transportCall attempt bodyBytes .err], .errAttempts retries true)
      else
        let delay := waitBeforeRetryDelay retryDelay maxRetryWait attempt
        let rest := doLoop retries retryDelay maxRetryWait transport ctxDone
          bodyBytes true (attempt + 1) fuel
        (.transportCall attempt bodyBytes .err ::
          .wait attempt delay (ctxDone attempt) :: rest.1, rest.2)
    | .ok status =>
      if shouldRetry status ∧ (attempt : Int) < retries then
        let delay := waitBeforeRetryDelay retryDelay maxRetryWait attempt
        let rest := doLoop retries retryDelay maxRetryWait transport ctxDone
          bodyBytes lastErrSet (attempt + 1) fuel
        (.transportCall attempt bodyBytes (.ok status) ::
          .closeRespBody attempt ::
          .wait attempt delay (ctxDone attempt) :: rest.1, rest.2)
      else
        ([.transportCall attempt bodyBytes (.ok status)], .resp attempt status)

/-- Embedding of `client.Do` from `httpx.go`.  If the request carries a body
(`origBody = some stream`), it is read fully once up front; a failing read
returns the body-read error with no attempts.  Then the retry loop runs
with the buffered bytes re-attached as a fresh stream on every attempt. -/
def Do (retries retryDelay maxRetryWait : Int)
    (transport : Nat → TransportResult) (ctxDone : Nat → Bool)
    (origBody : Option (Except Unit (List Nat))) : List Event × DoOutcome :=
  match origBody with
  | none =>
    doLoop retries retryDelay maxRetryWait transport ctxDone none false 1 retries.toNat
  | some (.error _) => ([.readBody none], .errBodyRead)
  | some (.ok bs) =>
    let rest := doLoop retries retryDelay maxRetryWait transport ctxDone
      (some bs) false 1 retries.toNat
    (.readBody (some bs) :: rest.1, rest.2)

/-- Is this event an invocation of the transport capability? -/
def isTransportCall : Event → Bool
  | .transportCall _ _ _ => true
  | _ => false

/-- Is this event a read of the caller-supplied body stream? -/
def isReadBody : Event → Bool
  | .readBody _ => true
  | _ => false

/-- Number of transport invocations recorded in a trace. -/
def transportCallCount (t : List Event) : Nat := t.countP isTransportCall

end Httpx

namespace Logger

/-- Constant `defaultMaxBodySize` from the logger source: 5 MiB. -/
def defaultMaxBodySize : Int := 5 * 1024 * 1024

/-- Go slice expression `data[:limit]` with an `int64` bound: yields the
first `limit` bytes, and panics (`none`) when the bound is negative or
past the end.  (`readBody` only evaluates it when `limit < len(data)`.) -/
def goSliceTo (data : List Nat) (limit : Int) : Option (List Nat) :=
  if 0 ≤ limit ∧ limit ≤ (data.length : Int) then some (data.take limit.toNat)
  else none

/-- Result of the logger's `readBody`: either the read failed (the caller
gets a `nil` byte slice, an empty replacement stream, and the error), or
it returns the bytes to log and the contents of the fresh replacement
stream. -/
inductive ReadBodyResult where
  | failed
  | ok (logBytes : List Nat) (stream : List Nat)
  deriving DecidableEq, Repr

/-- Embedding of `readBody` from the logger source: read the whole body,
close it,
and on success return `data[:limit]` for logging (when the length exceeds
`limit`) together with a fresh reader over the full `data`.  The outer
`Option` is Go panic propagation from the slice expression. -/
def readBody (body : Except Unit (List Nat)) (limit : Int) :
    Option ReadBodyResult :=
  match body with
  | .error _ => some .failed
  | .ok data =>
    if (data.length : Int) > limit then
      (goSliceTo data limit).map fun lb => .ok lb data
    else
      some (.ok data data)

/-- Configuration of `LoggingRoundTripper` relevant to body handling. -/
structure LRT where
  logBodies : Bool
  maxBodySize : Int
  deriving DecidableEq, Repr

/-- Structured log events emitted by the interceptor. -/
inductive LogEvent where
  | warnReadRequestBody
  | debugRequestBody (body : List Nat)
  | warnReadResponseBody
  | debugResponseBody (body : List Nat)
  | errorRequestFailed
  | infoCompleted (status : Int)
  deriving DecidableEq, Repr

/-- Embedding of `LoggingRoundTripper.logRequest`: when body capture is
on and a body
is present, read it via `readBody`, re-attach the replacement stream
(always, before the error check), and emit either a warning (read failed)
or a debug event with the captured bytes.  Returns the request body as
the downstream transport will see it, plus the emitted events. -/
def logRequest (l : LRT) (reqBody : Option (Except Unit (List Nat))) :
    Option (Option (Except Unit (List Nat)) × List LogEvent) :=
  if !l.logBodies then some (reqBody, [])
  else
    match reqBody with
    | none => some (none, [])
    | some body =>
      (readBody body l.maxBodySize).map fun r =>
        match r with
        | .failed => (some (.ok []), [.warnReadRequestBody])
        | .ok logBytes stream => (some (.ok stream), [.debugRequestBody logBytes])

/-- Embedding of `LoggingRoundTripper.logResponse`: when body capture is
on and the
response has a body, read/re-attach it the same way and emit a warning or
a debug event; always emit the info-level completion event.  Returns the
response body as the caller will see it, plus the emitted events. -/
def logResponse (l : LRT) (respBody : Option (Except Unit (List Nat)))
    (status : Int) :
    Option (Option (Except Unit (List Nat)) × List LogEvent) :=
  if l.logBodies then
    match respBody with
    | none => some (none, [.infoCompleted status])
    | some body =>
      (readBody body l.maxBodySize).map fun r =>
        match r with
        | .failed =>
          (some (.ok []), [.warnReadResponseBody, .infoCompleted status])
        | .ok logBytes stream =>
          (some (.ok stream), [.debugResponseBody logBytes, .infoCompleted status])
  else some (respBody, [.infoCompleted status])

/-- Outcome of the wrapped transport as seen by `RoundTrip`: an error, or
a response carrying a status code and a body stream. -/
inductive RTResult where
  | err
  | resp (status : Int) (body : Option (Except Unit (List Nat)))
  deriving Repr

/-- What one call of `LoggingRoundTripper.RoundTrip` did: the request body
actually forwarded to the wrapped transport, the log events emitted, and
the propagated result. -/
structure RTOutput where
  forwardedBody : Option (Except Unit (List Nat))
  events : List LogEvent
  result : RTResult
  deriving Repr

/-- Embedding of `LoggingRoundTripper.RoundTrip`: log (and possibly
rewrite) the
request body, forward the request to the wrapped transport `next`, then
either log the transport error and propagate it, or log (and possibly
rewrite) the response body and propagate the response.  `next` maps the
forwarded request body to the transport outcome. -/
def RoundTrip (l : LRT)
    (next : Option (Except Unit (List Nat)) →
      Except Unit (Int × Option (Except Unit (List Nat))))
    (reqBody : Option (Except Unit (List Nat))) : Option RTOutput :=
  (logRequest l reqBody).bind fun p =>
    match next p.1 with
    | .error _ => some ⟨p.1, p.2 ++ [.errorRequestFailed], .err⟩
    | .ok (status, respBody) =>
      (logResponse l respBody status).map fun q =>
        ⟨p.1, p.2 ++ q.2, .resp status q.1⟩

/-- The result propagated by `RoundTrip` corresponds to the wrapped
transport's outcome: an error propagates as an error, and a response
propagates with the same status code. -/
def resultMatches : RTResult →
    Except Unit (Int × Option (Except Unit (List Nat))) → Prop
  | .err, .error _ => True
  | .resp s _, .ok p => s = p.1
  | _, _ => False

end Logger

namespace Httpx

theorem doLoop_call_body (retries retryDelay maxRetryWait : Int)
    (transport : Nat → TransportResult) (ctxDone : Nat → Bool)
    (bodyBytes : Option (List Nat)) :
    ∀ (fuel attempt : Nat) (lastErrSet : Bool) (k : Nat) (b : Option (List Nat))
      (r : TransportResult),
      Event.transportCall k b r ∈
        (doLoop retries retryDelay maxRetryWait transport ctxDone bodyBytes
          lastErrSet attempt fuel).1 →
      b = bodyBytes := by
  intro fuel
  induction fuel with
  | zero =>
    intro a l k b r h
    simp [doLoop] at h
  | succ n ih =>
    intro a l k b r h
    rw [doLoop] at h
    cases htr : transport a with
    | err =>
      rw [htr] at h
      by_cases hge : (a : Int) ≥ retries
      · simp only [if_pos hge, List.mem_singleton] at h
        exact (Event.transportCall.injEq _ _ _ _ _ _).mp h |>.2.1
      · simp only [if_neg hge, List.mem_cons] at h
        rcases h with h | h | h
        · exact (Event.transportCall.injEq _ _ _ _ _ _).mp h |>.2.1
        · exact absurd h (by simp)
        · exact ih _ _ _ _ _ h
    | ok s =>
      rw [htr] at h
      by_cases hret : shouldRetry s ∧ (a : Int) < retries
      · simp only [if_pos hret, List.mem_cons] at h
        rcases h with h | h | h | h
        · exact (Event.transportCall.injEq _ _ _ _ _ _).mp h |>.2.1
        · exact absurd h (by simp)
        · exact absurd h (by simp)
        · exact ih _ _ _ _ _ h
      · simp only [if_neg hret, List.mem_singleton] at h
        exact (Event.transportCall.injEq _ _ _ _ _ _).mp h |>.2.1

end Httpx

namespace Httpx

theorem doLoop_no_readBody (retries retryDelay maxRetryWait : Int)
    (transport : Nat → TransportResult) (ctxDone : Nat → Bool)
    (bodyBytes : Option (List Nat)) :
    ∀ (fuel attempt : Nat) (lastErrSet : Bool) (o : Option (List Nat)),
      Event.readBody o ∉
        (doLoop retries retryDelay maxRetryWait transport ctxDone bodyBytes
          lastErrSet attempt fuel).1 := by
  intro fuel
  induction fuel with
  | zero =>
    intro a l o h
    simp [doLoop] at h
  | succ n ih =>
    intro a l o h
    rw [doLoop] at h
    cases htr : transport a with
    | err =>
      rw [htr] at h
      by_cases hge : (a : Int) ≥ retries
      · simp only [if_pos hge, List.mem_singleton] at h
        exact absurd h (by simp)
      · simp only [if_neg hge, List.mem_cons] at h
        rcases h with h | h | h
        · exact absurd h (by simp)
        · exact absurd h (by simp)
        · exact ih _ _ _ h
    | ok s =>
      rw [htr] at h
      by_cases hret : shouldRetry s ∧ (a : Int) < retries
      · simp only [if_pos hret, List.mem_cons] at h
        rcases h with h | h | h | h
        · exact absurd h (by simp)
        · exact absurd h (by simp)
        · exact absurd h (by simp)
        · exact ih _ _ _ h
      · simp only [if_neg hret, List.mem_singleton] at h
        exact absurd h (by simp)

theorem doLoop_ok_terminal (retries retryDelay maxRetryWait : Int)
    (transport : Nat → TransportResult) (ctxDone : Nat → Bool)
    (bodyBytes : Option (List Nat)) :
    ∀ (fuel attempt : Nat) (lastErrSet : Bool) (k : Nat) (b : Option (List Nat))
      (s : Int),
      Event.transportCall k b (.ok s) ∈
        (doLoop retries retryDelay maxRetryWait transport ctxDone bodyBytes
          lastErrSet attempt fuel).1 →
      (shouldRetry s = false ∨ (k : Int) ≥ retries) →
      (doLoop retries retryDelay maxRetryWait transport ctxDone bodyBytes
          lastErrSet attempt fuel).2 = .resp k s ∧
      (doLoop retries retryDelay maxRetryWait transport ctxDone bodyBytes
          lastErrSet attempt fuel).1.getLast? =
        some (Event.transportCall k b (.ok s)) := by
  intro fuel
  induction fuel with
  | zero =>
    intro a l k b s h _
    simp [doLoop] at h
  | succ n ih =>
    intro a l k b s h hterm
    cases htr : transport a with
    | err =>
      rw [doLoop] at h ⊢
      rw [htr] at h ⊢
      by_cases hge : (a : Int) ≥ retries
      · simp only [if_pos hge, List.mem_singleton] at h
        exact absurd h (by simp)
      · simp only [if_neg hge, List.mem_cons] at h
        rcases h with h | h | h
        · exact absurd h (by simp)
        · exact absurd h (by simp)
        · have := ih (a + 1) true k b s h hterm
          rcases List.exists_cons_of_ne_nil (List.ne_nil_of_mem h) with ⟨x, xs, hx⟩
          simp only [if_neg hge]
          refine ⟨this.1, ?_⟩
          rw [hx] at this ⊢
          simpa using this.2
    | ok s' =>
      rw [doLoop] at h ⊢
      rw [htr] at h ⊢
      by_cases hret : shouldRetry s' ∧ (a : Int) < retries
      · simp only [if_pos hret, List.mem_cons] at h
        rcases h with h | h | h | h
        · rcases (Event.transportCall.injEq _ _ _ _ _ _).mp h with ⟨hk, _, hs⟩
          rcases hterm with hterm | hterm
          · rw [TransportResult.ok.injEq] at hs
            rw [← hs] at hret
            rw [hterm] at hret
            exact absurd hret.1 (by simp)
          · rw [hk] at hterm
            exact absurd hret.2 (not_lt.mpr hterm)
        · exact absurd h (by simp)
        · exact absurd h (by simp)
        · have := ih (a + 1) l k b s h hterm
          rcases List.exists_cons_of_ne_nil (List.ne_nil_of_mem h) with ⟨x, xs, hx⟩
          simp only [if_pos hret]
          refine ⟨this.1, ?_⟩
          rw [hx] at this ⊢
          simpa using this.2
      · simp only [if_neg hret, List.mem_singleton] at h
        rcases (Event.transportCall.injEq _ _ _ _ _ _).mp h with ⟨hk, hb, hs⟩
        rw [TransportResult.ok.injEq] at hs
        simp only [if_neg hret]
        subst hk hb hs
        exact ⟨rfl, rfl⟩

end Httpx

namespace Httpx

theorem doLoop_head (retries retryDelay maxRetryWait : Int)
    (transport : Nat → TransportResult) (ctxDone : Nat → Bool)
    (bodyBytes : Option (List Nat)) (attempt : Nat) (lastErrSet : Bool)
    (fuel : Nat) (hfuel : 1 ≤ fuel) :
    (doLoop retries retryDelay maxRetryWait transport ctxDone bodyBytes
      lastErrSet attempt fuel).1.head? =
    some (Event.transportCall attempt bodyBytes (transport attempt)) := by
  cases fuel with
  | zero => omega
  | succ n =>
    cases htr : transport attempt with
    | err =>
      rw [doLoop, htr]
      by_cases hge : (attempt : Int) ≥ retries
      · simp only [if_pos hge, List.head?_cons, htr]
      · simp only [if_neg hge, List.head?_cons, htr]
    | ok s =>
      rw [doLoop, htr]
      by_cases hret : shouldRetry s ∧ (attempt : Int) < retries
      · simp only [if_pos hret, List.head?_cons, htr]
      · simp only [if_neg hret, List.head?_cons, htr]

theorem doLoop_wait_then_call (retries retryDelay maxRetryWait : Int)
    (transport : Nat → TransportResult) (ctxDone : Nat → Bool)
    (bodyBytes : Option (List Nat)) :
    ∀ (fuel attempt : Nat) (lastErrSet : Bool) (k : Nat) (d : Int) (c : Bool),
      (attempt : Int) + fuel = retries + 1 →
      Event.wait k d c ∈
        (doLoop retries retryDelay maxRetryWait transport ctxDone bodyBytes
          lastErrSet attempt fuel).1 →
      ∃ b r, Event.transportCall (k + 1) b r ∈
        (doLoop retries retryDelay maxRetryWait transport ctxDone bodyBytes
          lastErrSet attempt fuel).1 := by
  intro fuel
  induction fuel with
  | zero =>
    intro a l k d c _ h
    simp [doLoop] at h
  | succ n ih =>
    intro a l k d c hinv h
    cases htr : transport a with
    | err =>
      rw [doLoop, htr] at h ⊢
      by_cases hge : (a : Int) ≥ retries
      · simp only [if_pos hge, List.mem_singleton] at h
        exact absurd h (by simp)
      · simp only [if_neg hge, List.mem_cons] at h ⊢
        have hn : 1 ≤ n := by omega
        rcases h with h | h | h
        · exact absurd h (by simp)
        · rcases (Event.wait.injEq _ _ _ _ _ _).mp h with ⟨hk, _, _⟩
          subst hk
          refine ⟨bodyBytes, transport (k + 1), Or.inr (Or.inr ?_)⟩
          exact List.mem_of_mem_head?
            (by rw [doLoop_head retries retryDelay maxRetryWait transport
                      ctxDone bodyBytes (k + 1) true n hn]; rfl)
        · rcases ih (a + 1) true k d c (by push_cast; push_cast at hinv; omega) h
            with ⟨b, r, hb⟩
          exact ⟨b, r, Or.inr (Or.inr hb)⟩
    | ok s =>
      rw [doLoop, htr] at h ⊢
      by_cases hret : shouldRetry s ∧ (a : Int) < retries
      · simp only [if_pos hret, List.mem_cons] at h ⊢
        have hn : 1 ≤ n := by omega
        rcases h with h | h | h | h
        · exact absurd h (by simp)
        · exact absurd h (by simp)
        · rcases (Event.wait.injEq _ _ _ _ _ _).mp h with ⟨hk, _, _⟩
          subst hk
          refine ⟨bodyBytes, transport (k + 1), Or.inr (Or.inr (Or.inr ?_))⟩
          exact List.mem_of_mem_head?
            (by rw [doLoop_head retries retryDelay maxRetryWait transport
                      ctxDone bodyBytes (k + 1) l n hn]; rfl)
        · rcases ih (a + 1) l k d c (by push_cast; push_cast at hinv; omega) h
            with ⟨b, r, hb⟩
          exact ⟨b, r, Or.inr (Or.inr (Or.inr hb))⟩
      · simp only [if_neg hret, List.mem_singleton] at h
        exact absurd h (by simp)

theorem doLoop_outcome_ctx_indep (retries retryDelay maxRetryWait : Int)
    (transport : Nat → TransportResult) (c1 c2 : Nat → Bool)
    (bodyBytes : Option (List Nat)) :
    ∀ (fuel attempt : Nat) (lastErrSet : Bool),
      (doLoop retries retryDelay maxRetryWait transport c1 bodyBytes
        lastErrSet attempt fuel).2 =
      (doLoop retries retryDelay maxRetryWait transport c2 bodyBytes
        lastErrSet attempt fuel).2 := by
  intro fuel
  induction fuel with
  | zero => intro a l; rfl
  | succ n ih =>
    intro a l
    cases htr : transport a with
    | err =>
      rw [doLoop, doLoop, htr]
      by_cases hge : (a : Int) ≥ retries
      · simp only [if_pos hge]
      · simp only [if_neg hge]
        exact ih (a + 1) true
    | ok s =>
      rw [doLoop, doLoop, htr]
      by_cases hret : shouldRetry s ∧ (a : Int) < retries
      · simp only [if_pos hret]
        exact ih (a + 1) l
      · simp only [if_neg hret]

end Httpx

namespace Httpx

theorem doLoop_const_retryable (retries retryDelay maxRetryWait : Int)
    (transport : Nat → TransportResult) (ctxDone : Nat → Bool)
    (bodyBytes : Option (List Nat)) (s : Int) (hs : shouldRetry s = true)
    (htr : ∀ j, transport j = .ok s) :
    ∀ (fuel attempt : Nat) (lastErrSet : Bool),
      1 ≤ fuel →
      (attempt : Int) + fuel = retries + 1 →
      (doLoop retries retryDelay maxRetryWait transport ctxDone bodyBytes
        lastErrSet attempt fuel).2 = .resp (attempt + fuel - 1) s ∧
      transportCallCount
        (doLoop retries retryDelay maxRetryWait transport ctxDone bodyBytes
          lastErrSet attempt fuel).1 = fuel := by
  intro fuel
  induction fuel with
  | zero => intro a l h _; omega
  | succ n ih =>
    intro a l _ hinv
    rw [doLoop, htr a]
    by_cases hret : shouldRetry s ∧ (a : Int) < retries
    · have hn : 1 ≤ n := by
        rcases hret with ⟨_, hlt⟩
        omega
      have hinv' : ((a + 1 : Nat) : Int) + n = retries + 1 := by
        push_cast; push_cast at hinv; omega
      have := ih (a + 1) l hn hinv'
      simp only [if_pos hret]
      constructor
      · rw [this.1]
        congr 1
        omega
      · have h2 := this.2
        simp [transportCallCount, List.countP_cons, isTransportCall] at h2 ⊢
        omega
    · have hn : n = 0 := by
        rcases not_and_or.mp hret with hbad | hge
        · exact absurd hs hbad
        · omega
      simp only [if_neg hret]
      subst hn
      refine ⟨by rw [Nat.add_sub_cancel], ?_⟩
      simp [transportCallCount, isTransportCall]

end Httpx

namespace Httpx

theorem Do_ok_terminal (retries retryDelay maxRetryWait : Int)
    (transport : Nat → TransportResult) (ctxDone : Nat → Bool)
    (origBody : Option (Except Unit (List Nat))) (k : Nat)
    (b : Option (List Nat)) (s : Int)
    (h : Event.transportCall k b (.ok s) ∈
      (Do retries retryDelay maxRetryWait transport ctxDone origBody).1)
    (hterm : shouldRetry s = false ∨ (k : Int) ≥ retries) :
    (Do retries retryDelay maxRetryWait transport ctxDone origBody).2 =
      .resp k s ∧
    (Do retries retryDelay maxRetryWait transport ctxDone origBody).1.getLast? =
      some (Event.transportCall k b (.ok s)) := by
  match origBody with
  | none =>
    exact doLoop_ok_terminal retries retryDelay maxRetryWait transport ctxDone
      none retries.toNat 1 false k b s h hterm
  | some (.error u) =>
    simp only [Do, List.mem_singleton] at h
    exact absurd h (by simp)
  | some (.ok bs) =>
    simp only [Do, List.mem_cons] at h
    rcases h with h | h
    · exact absurd h (by simp)
    · have := doLoop_ok_terminal retries retryDelay maxRetryWait transport
        ctxDone (some bs) retries.toNat 1 false k b s h hterm
      refine ⟨this.1, ?_⟩
      rcases List.exists_cons_of_ne_nil (List.ne_nil_of_mem h) with ⟨x, xs, hx⟩
      simp only [Do]
      rw [hx] at this ⊢
      simpa using this.2

end Httpx

namespace Logger

theorem readBody_isSome (body : Except Unit (List Nat)) (limit : Int)
    (hnn : 0 ≤ limit) : ∃ r, readBody body limit = some r := by
  match body with
  | .error u => exact ⟨.failed, rfl⟩
  | .ok data =>
    by_cases hlen : (data.length : Int) > limit
    · refine ⟨.ok (data.take limit.toNat) data, ?_⟩
      simp only [readBody, if_pos hlen, goSliceTo]
      rw [if_pos ⟨hnn, by omega⟩]
      rfl
    · exact ⟨.ok data data, by simp only [readBody, if_neg hlen]⟩

theorem logResponse_isSome (l : LRT) (respBody : Option (Except Unit (List Nat)))
    (status : Int) (hnn : 0 ≤ l.maxBodySize) :
    ∃ q, logResponse l respBody status = some q := by
  by_cases hcap : l.logBodies
  · match respBody with
    | none => exact ⟨(none, [.infoCompleted status]), by simp [logResponse, hcap]⟩
    | some body =>
      rcases readBody_isSome body l.maxBodySize hnn with ⟨r, hr⟩
      match r with
      | .failed =>
        exact ⟨(some (.ok []), [.warnReadResponseBody, .infoCompleted status]),
          by simp [logResponse, hcap, hr]⟩
      | .ok logBytes stream =>
        exact ⟨(some (.ok stream),
          [.debugResponseBody logBytes, .infoCompleted status]),
          by simp [logResponse, hcap, hr]⟩
  · exact ⟨(respBody, [.infoCompleted status]), by simp [logResponse, hcap]⟩

end Logger

namespace Httpx

/-- Claim C3: the retry-eligibility predicate on status codes holds exactly
for 429, 408, and every status in 500..599; every other status is terminal:
as soon as an attempt returns such a response, `Do` returns it immediately
(it is the last event of the execution, so no further attempt is consumed),
with a nil error, regardless of how many attempts remain. -/
theorem C3_retry_eligibility :
    (∀ s : Int, shouldRetry s = true ↔
      (s = 429 ∨ s = 408 ∨ (500 ≤ s ∧ s < 600))) ∧
    (∀ (retries retryDelay maxRetryWait : Int)
      (transport : Nat → TransportResult) (ctxDone : Nat → Bool)
      (origBody : Option (Except Unit (List Nat))) (k : Nat)
      (b : Option (List Nat)) (s : Int),
      Event.transportCall k b (.ok s) ∈
        (Do retries retryDelay maxRetryWait transport ctxDone origBody).1 →
      shouldRetry s = false →
      (Do retries retryDelay maxRetryWait transport ctxDone origBody).2 =
        .resp k s ∧
      (Do retries retryDelay maxRetryWait transport ctxDone
          origBody).1.getLast? = some (Event.transportCall k b (.ok s))) := by
  constructor
  · intro s
    simp only [shouldRetry, Bool.or_eq_true, beq_iff_eq, Bool.and_eq_true,
      decide_eq_true_eq]
    omega
  · intro retries retryDelay maxRetryWait transport ctxDone origBody k b s h hf
    exact Do_ok_terminal retries retryDelay maxRetryWait transport ctxDone
      origBody k b s h (Or.inl hf)

/-- Witness for C3 at concrete inputs: 404 is not retry-eligible, 429 is,
and an execution whose first attempt returns 404 with two attempts
remaining ends immediately with that response and a nil error. -/
theorem C3_retry_eligibility_witness :
    shouldRetry 404 = false ∧ shouldRetry 429 = true ∧
    (Do 3 100000000 5000000000 (fun _ => .ok 404) (fun _ => false) none).2 =
      .resp 1 404 := by
  refine ⟨by decide, (C3_retry_eligibility.1 429).mpr (by omega), ?_⟩
  exact (C3_retry_eligibility.2 3 100000000 5000000000 (fun _ => .ok 404)
    (fun _ => false) none 1 none 404 (by decide) (by decide)).1

/-- Claim C4: when the final allowed attempt yields a transport-level
success whose status is retry-eligible but no attempts remain, `Do`
returns that last response with a nil error (`DoOutcome.resp`; the outcome
type is a sum, so a response and an error are never returned together). -/
theorem C4_exhausted_returns_last_response (retries retryDelay maxRetryWait : Int)
    (transport : Nat → TransportResult) (ctxDone : Nat → Bool)
    (origBody : Option (Except Unit (List Nat))) (k : Nat)
    (b : Option (List Nat)) (s : Int)
    (h : Event.transportCall k b (.ok s) ∈
      (Do retries retryDelay maxRetryWait transport ctxDone origBody).1)
    (hs : shouldRetry s = true)
    (hlast : (k : Int) ≥ retries) :
    (Do retries retryDelay maxRetryWait transport ctxDone origBody).2 =
      .resp k s := by
  exact (Do_ok_terminal retries retryDelay maxRetryWait transport ctxDone
    origBody k b s h (Or.inr hlast)).1

/-- Witness for C4: one allowed attempt, the transport returns 503
(retry-eligible); the caller receives the 503 response with a nil error. -/
theorem C4_exhausted_returns_last_response_witness :
    (Do 1 100000000 5000000000 (fun _ => .ok 503) (fun _ => false) none).2 =
      .resp 1 503 :=
  C4_exhausted_returns_last_response 1 100000000 5000000000
    (fun _ => .ok 503) (fun _ => false) none 1 none 503 (by decide)
    (by decide) (by decide)

/-- Claim C6: when reading the caller-supplied request body fails, `Do`
returns immediately with the body-read error and a nil response, and the
transport capability is invoked zero times. -/
theorem C6_body_read_error_no_attempts (retries retryDelay maxRetryWait : Int)
    (transport : Nat → TransportResult) (ctxDone : Nat → Bool) :
    Do retries retryDelay maxRetryWait transport ctxDone (some (.error ())) =
      ([.readBody none], .errBodyRead) ∧
    transportCallCount
      (Do retries retryDelay maxRetryWait transport ctxDone
        (some (.error ()))).1 = 0 :=
  ⟨rfl, rfl⟩

/-- Claim C10: with a retries setting `n ≤ 0` and a request whose body (if
present) reads successfully, the loop body never runs: the transport is
invoked zero times and `Do` returns a nil response with the error
"request failed after n attempts with unknown error". -/
theorem C10_nonpositive_retries (retries retryDelay maxRetryWait : Int)
    (transport : Nat → TransportResult) (ctxDone : Nat → Bool)
    (origBody : Option (Except Unit (List Nat)))
    (hr : retries ≤ 0) (hb : origBody ≠ some (.error ())) :
    (Do retries retryDelay maxRetryWait transport ctxDone origBody).2 =
      .errAttempts retries false ∧
    transportCallCount
      (Do retries retryDelay maxRetryWait transport ctxDone origBody).1 = 0 := by
  have h0 : retries.toNat = 0 := Int.toNat_of_nonpos hr
  match origBody with
  | none =>
    rw [Do, h0]
    exact ⟨rfl, rfl⟩
  | some (.error u) => exact absurd rfl hb
  | some (.ok bs) =>
    rw [Do, h0]
    exact ⟨rfl, rfl⟩

/-- Witness for C10: retries set to 0 via `WithRetries(0)`, no body. -/
theorem C10_nonpositive_retries_witness :
    (Do 0 100000000 5000000000 (fun _ => .ok 200) (fun _ => false) none).2 =
      .errAttempts 0 false ∧
    transportCallCount
      (Do 0 100000000 5000000000 (fun _ => .ok 200) (fun _ => false)
        none).1 = 0 :=
  C10_nonpositive_retries 0 100000000 5000000000 (fun _ => .ok 200)
    (fun _ => false) none (by decide) (by simp)

end Httpx

namespace Httpx

/-- Claim C1: for a request with a body that reads as `bs`, `Do` buffers
the body exactly once before the first attempt (the single `readBody`
event heads the trace), and every transport invocation of the execution
carries a fresh stream over exactly the buffered bytes `bs`; the
caller-supplied stream itself is read exactly that one time. -/
theorem C1_body_buffered_once_replayed (retries retryDelay maxRetryWait : Int)
    (transport : Nat → TransportResult) (ctxDone : Nat → Bool) (bs : List Nat) :
    (Do retries retryDelay maxRetryWait transport ctxDone
      (some (.ok bs))).1.countP isReadBody = 1 ∧
    (Do retries retryDelay maxRetryWait transport ctxDone
      (some (.ok bs))).1.head? = some (.readBody (some bs)) ∧
    (∀ (k : Nat) (b : Option (List Nat)) (r : TransportResult),
      Event.transportCall k b r ∈
        (Do retries retryDelay maxRetryWait transport ctxDone
          (some (.ok bs))).1 →
      b = some bs) := by
  refine ⟨?_, by simp [Do], ?_⟩
  · simp only [Do, List.countP_cons]
    have hz : (doLoop retries retryDelay maxRetryWait transport ctxDone
        (some bs) false 1 retries.toNat).1.countP isReadBody = 0 := by
      rw [List.countP_eq_zero]
      intro e he
      cases e with
      | readBody o =>
        exact absurd he (doLoop_no_readBody retries retryDelay maxRetryWait
          transport ctxDone (some bs) retries.toNat 1 false o)
      | transportCall k b r => simp [isReadBody]
      | closeRespBody k => simp [isReadBody]
      | wait k d c => simp [isReadBody]
    rw [hz]
    simp [isReadBody]
  · intro k b r h
    simp only [Do, List.mem_cons] at h
    rcases h with h | h
    · exact absurd h (by simp)
    · exact doLoop_call_body retries retryDelay maxRetryWait transport ctxDone
        (some bs) retries.toNat 1 false k b r h

/-- Witness for C1: two attempts against an always-500 transport with body
bytes `[7, 8]`; the first attempt's transport invocation carries exactly
those bytes. -/
theorem C1_body_buffered_once_replayed_witness :
    (Do 2 100000000 5000000000 (fun _ => .ok 500) (fun _ => false)
      (some (.ok [7, 8]))).1.countP isReadBody = 1 ∧
    (some [7, 8] : Option (List Nat)) = some [7, 8] :=
  ⟨(C1_body_buffered_once_replayed 2 100000000 5000000000 (fun _ => .ok 500)
      (fun _ => false) [7, 8]).1,
    (C1_body_buffered_once_replayed 2 100000000 5000000000 (fun _ => .ok 500)
      (fun _ => false) [7, 8]).2.2 1 (some [7, 8]) (.ok 500) (by decide)⟩

/-- Counterexample to claim C2 as stated: with three allowed attempts, an
always-failing transport, and the caller's cancellation signal firing
during every backoff wait, the cancellation is observed during the wait
after attempt 1 (the `wait` event with `ctxFired = true`), yet the
transport capability is invoked again on attempt 2 — the retry loop is
not abandoned, and the execution continues through all three attempts. -/
theorem C2_counterexample :
    Event.wait 1 100000000 true ∈
      (Do 3 100000000 5000000000 (fun _ => .err) (fun _ => true) none).1 ∧
    Event.transportCall 2 none .err ∈
      (Do 3 100000000 5000000000 (fun _ => .err) (fun _ => true) none).1 ∧
    (Do 3 100000000 5000000000 (fun _ => .err) (fun _ => true) none).2 =
      .errAttempts 3 true := by
  decide

/-- Claim C2, amended: when the caller's cancellation signal fires while
the executor waits out a backoff delay, only the wait itself is cut short:
the retry loop is not abandoned — the transport capability is invoked
again on the next attempt — and the outcome of the execution does not
depend on the cancellation signal at all. -/
theorem C2_amended_cancel_cuts_wait_only (retries retryDelay maxRetryWait : Int)
    (transport : Nat → TransportResult) (ctxDone : Nat → Bool)
    (origBody : Option (Except Unit (List Nat))) (k : Nat) (d : Int)
    (h : Event.wait k d true ∈
      (Do retries retryDelay maxRetryWait transport ctxDone origBody).1) :
    (∃ b r, Event.transportCall (k + 1) b r ∈
      (Do retries retryDelay maxRetryWait transport ctxDone origBody).1) ∧
    (∀ ctx2 : Nat → Bool,
      (Do retries retryDelay maxRetryWait transport ctxDone origBody).2 =
      (Do retries retryDelay maxRetryWait transport ctx2 origBody).2) := by
  constructor
  · by_cases hr : 0 ≤ retries
    · have hinv : ((1 : Nat) : Int) + retries.toNat = retries + 1 := by
        rw [Int.toNat_of_nonneg hr]; omega
      match origBody with
      | none =>
        exact doLoop_wait_then_call retries retryDelay maxRetryWait transport
          ctxDone none retries.toNat 1 false k d true hinv h
      | some (.error u) =>
        simp only [Do, List.mem_singleton] at h
        exact absurd h (by simp)
      | some (.ok bs) =>
        simp only [Do, List.mem_cons] at h
        rcases h with h | h
        · exact absurd h (by simp)
        · rcases doLoop_wait_then_call retries retryDelay maxRetryWait
            transport ctxDone (some bs) retries.toNat 1 false k d true hinv h
            with ⟨b, r, hb⟩
          exact ⟨b, r, by simp only [Do, List.mem_cons]; exact Or.inr hb⟩
    · have h0 : retries.toNat = 0 := by omega
      match origBody with
      | none => rw [Do, h0] at h; exact absurd h (by simp [doLoop])
      | some (.error u) =>
        simp only [Do, List.mem_singleton] at h
        exact absurd h (by simp)
      | some (.ok bs) =>
        rw [Do, h0] at h
        simp only [doLoop, List.mem_singleton] at h
        exact absurd h (by simp)
  · intro ctx2
    match origBody with
    | none =>
      exact doLoop_outcome_ctx_indep retries retryDelay maxRetryWait transport
        ctxDone ctx2 none retries.toNat 1 false
    | some (.error u) => rfl
    | some (.ok bs) =>
      simp only [Do]
      exact doLoop_outcome_ctx_indep retries retryDelay maxRetryWait transport
        ctxDone ctx2 (some bs) retries.toNat 1 false

/-- Witness for the amended C2, at the counterexample's input. -/
theorem C2_amended_cancel_cuts_wait_only_witness :
    (∃ b r, Event.transportCall 2 b r ∈
      (Do 3 100000000 5000000000 (fun _ => .err) (fun _ => true) none).1) ∧
    (∀ ctx2 : Nat → Bool,
      (Do 3 100000000 5000000000 (fun _ => .err) (fun _ => true) none).2 =
      (Do 3 100000000 5000000000 (fun _ => .err) ctx2 none).2) :=
  C2_amended_cancel_cuts_wait_only 3 100000000 5000000000 (fun _ => .err)
    (fun _ => true) none 1 100000000 (by decide)

end Httpx

namespace Httpx

theorem wrap64_eq_of_range (x : Int) (h1 : -(2 ^ 63) ≤ x) (h2 : x < 2 ^ 63) :
    wrap64 x = x := by
  have hm : (x + 2 ^ 63) % 2 ^ 64 = x + 2 ^ 63 :=
    Int.emod_eq_of_lt (by omega) (by omega)
  simp only [wrap64]
  omega

/-- Counterexample to claim C5 as stated: with the default configuration
(`initialBackoff` = 100ms, `maxBackoff` = 5s) and attempt index k = 38
(reachable whenever `maxAttempts ≥ 39`), the delay the code computes is
the wrapped-around value -4702848726509551616 ns, not
`min(initialBackoff * 2^37, maxBackoff) = 5s`: the multiplication is
64-bit wraparound arithmetic, not exact integer arithmetic.  A full run
with 39 attempts indeed records that wait. -/
theorem C5_counterexample :
    waitBeforeRetryDelay defaultRetryDelay defaultMaxRetryWait 38 =
      -4702848726509551616 ∧
    min (defaultRetryDelay * 2 ^ (38 - 1)) defaultMaxRetryWait = 5000000000 ∧
    waitBeforeRetryDelay defaultRetryDelay defaultMaxRetryWait 38 ≠
      min (defaultRetryDelay * 2 ^ (38 - 1)) defaultMaxRetryWait ∧
    Event.wait 38 (-4702848726509551616) false ∈
      (Do 39 defaultRetryDelay defaultMaxRetryWait (fun _ => .ok 500)
        (fun _ => false) none).1 := by
  refine ⟨by decide, by decide, by decide, by decide⟩

/-- Claim C5, amended: the backoff delay between attempt k and k+1 equals
`min(initialBackoff * 2^(k-1), maxBackoff)` provided the shift and the
multiplication do not overflow a 64-bit integer (k ≤ 63, nonnegative
`initialBackoff`, and `initialBackoff * 2^(k-1) < 2^63`); outside that
range the computed delay is the wrapped-around value. -/
theorem C5_amended_backoff_formula (retryDelay maxRetryWait : Int) (k : Nat)
    (h1 : 1 ≤ k) (h2 : k ≤ 63) (h3 : 0 ≤ retryDelay)
    (h4 : retryDelay * 2 ^ (k - 1) < 2 ^ 63) :
    waitBeforeRetryDelay retryDelay maxRetryWait k =
      min (retryDelay * 2 ^ (k - 1)) maxRetryWait := by
  have hp : (0 : Int) < 2 ^ (k - 1) := pow_pos (by norm_num) _
  have hsh : ((2 : Int) ^ (k - 1)) < 2 ^ 63 := by
    calc ((2 : Int) ^ (k - 1)) ≤ 2 ^ 62 :=
          pow_le_pow_right₀ (by norm_num) (by omega)
    _ < 2 ^ 63 := by norm_num
  have hw1 : wrap64 ((2 : Int) ^ (k - 1)) = 2 ^ (k - 1) :=
    wrap64_eq_of_range _ (by omega) hsh
  have hw2 : wrap64 (retryDelay * 2 ^ (k - 1)) = retryDelay * 2 ^ (k - 1) :=
    wrap64_eq_of_range _ (by nlinarith) h4
  simp only [waitBeforeRetryDelay, hw1, hw2]
  set p := retryDelay * 2 ^ (k - 1) with hpdef
  rw [min_def]
  split_ifs <;> omega

/-- Witness for the amended C5: k = 3 with the default configuration gives
a delay of 400ms = min(100ms * 4, 5s). -/
theorem C5_amended_backoff_formula_witness :
    waitBeforeRetryDelay defaultRetryDelay defaultMaxRetryWait 3 =
      min (defaultRetryDelay * 2 ^ (3 - 1)) defaultMaxRetryWait :=
  C5_amended_backoff_formula defaultRetryDelay defaultMaxRetryWait 3
    (by decide) (by decide) (by decide) (by decide)

/-- Claim C8: with `maxAttempts = N ≥ 1` and a transport that returns a
status-500 response on every invocation (and a request body that does not
fail to read), the transport is invoked exactly N times and `Do` returns
the attempt-N response with status 500 and a nil error. -/
theorem C8_always_500_exhausts_attempts (N retryDelay maxRetryWait : Int)
    (transport : Nat → TransportResult) (ctxDone : Nat → Bool)
    (origBody : Option (Except Unit (List Nat)))
    (htr : ∀ j, transport j = .ok 500)
    (hN : 1 ≤ N) (hb : origBody ≠ some (.error ())) :
    (Do N retryDelay maxRetryWait transport ctxDone origBody).2 =
      .resp N.toNat 500 ∧
    transportCallCount
      (Do N retryDelay maxRetryWait transport ctxDone origBody).1 =
      N.toNat := by
  have hfuel : 1 ≤ N.toNat := by omega
  have hinv : ((1 : Nat) : Int) + N.toNat = N + 1 := by
    rw [Int.toNat_of_nonneg (by omega)]; omega
  match origBody with
  | none =>
    have h := doLoop_const_retryable N retryDelay maxRetryWait transport
      ctxDone none 500 (by decide) htr N.toNat 1 false hfuel hinv
    rw [Do]
    refine ⟨?_, h.2⟩
    rw [h.1]
    congr 1
    omega
  | some (.error u) => exact absurd rfl hb
  | some (.ok bs) =>
    have h := doLoop_const_retryable N retryDelay maxRetryWait transport
      ctxDone (some bs) 500 (by decide) htr N.toNat 1 false hfuel hinv
    simp only [Do]
    constructor
    · rw [h.1]
      congr 1
      omega
    · simp only [transportCallCount, List.countP_cons]
      have h2 := h.2
      simp only [transportCallCount] at h2
      simp [isReadBody, isTransportCall, h2]

/-- Witness for C8: N = 2, no body; two invocations and the attempt-2
response with status 500. -/
theorem C8_always_500_exhausts_attempts_witness :
    (Do 2 100000000 5000000000 (fun _ => .ok 500) (fun _ => false) none).2 =
      .resp (2 : Int).toNat 500 ∧
    transportCallCount
      (Do 2 100000000 5000000000 (fun _ => .ok 500) (fun _ => false)
        none).1 = (2 : Int).toNat :=
  C8_always_500_exhausts_attempts 2 100000000 5000000000 (fun _ => .ok 500)
    (fun _ => false) none (fun _ => rfl) (by decide) (by simp)

end Httpx

namespace Logger

/-- Claim C7: when the interceptor captures a body of S bytes with capture
limit `maxCapturedBytes ≥ 0`, the logged text is exactly the first
`maxCapturedBytes` bytes (and has exactly that length) whenever
S > `maxCapturedBytes`, while the stream re-attached for the downstream
consumer always yields all S original bytes; when S ≤ `maxCapturedBytes`
the logged text is the whole body. -/
theorem C7_truncation_policy (l : LRT) (data : List Nat) (status : Int)
    (hcap : l.logBodies = true) (hnn : 0 ≤ l.maxBodySize) :
    (l.maxBodySize < (data.length : Int) →
      logResponse l (some (.ok data)) status =
        some (some (.ok data),
          [.debugResponseBody (data.take l.maxBodySize.toNat),
            .infoCompleted status]) ∧
      (data.take l.maxBodySize.toNat).length = l.maxBodySize.toNat) ∧
    ((data.length : Int) ≤ l.maxBodySize →
      logResponse l (some (.ok data)) status =
        some (some (.ok data), [.debugResponseBody data,
          .infoCompleted status])) := by
  constructor
  · intro hover
    have hrb : readBody (.ok data) l.maxBodySize =
        some (.ok (data.take l.maxBodySize.toNat) data) := by
      simp only [readBody, if_pos (by omega : (data.length : Int) > l.maxBodySize),
        goSliceTo]
      rw [if_pos ⟨hnn, by omega⟩]
      rfl
    constructor
    · simp [logResponse, hcap, hrb]
    · rw [List.length_take]
      omega
  · intro hunder
    have hrb : readBody (.ok data) l.maxBodySize = some (.ok data data) := by
      simp only [readBody, if_neg (by omega : ¬(data.length : Int) > l.maxBodySize)]
    simp [logResponse, hcap, hrb]

/-- Witness for C7: capture limit 2, body `[9, 8, 7]` (S = 3 > 2): the
logged text is `[9, 8]`, the re-attached stream yields `[9, 8, 7]`. -/
theorem C7_truncation_policy_witness :
    logResponse ⟨true, 2⟩ (some (.ok [9, 8, 7])) 200 =
      some (some (.ok [9, 8, 7]),
        [.debugResponseBody [9, 8], .infoCompleted 200]) ∧
    logResponse ⟨true, 2⟩ (some (.ok [4, 5])) 200 =
      some (some (.ok [4, 5]),
        [.debugResponseBody [4, 5], .infoCompleted 200]) :=
  ⟨((C7_truncation_policy ⟨true, 2⟩ [9, 8, 7] 200 rfl (by decide)).1
      (by decide)).1,
    (C7_truncation_policy ⟨true, 2⟩ [4, 5] 200 rfl (by decide)).2 (by decide)⟩

/-- Claim C9: with body capture enabled (and a nonnegative capture limit),
a failing request-body read is non-fatal: the warning event is emitted, an
empty but valid stream is attached in place of the body, the request is
still forwarded to the underlying transport with that empty body, and the
transport's result is propagated normally (error as error, response with
its status). -/
theorem C9_capture_read_failure_nonfatal (l : LRT)
    (next : Option (Except Unit (List Nat)) →
      Except Unit (Int × Option (Except Unit (List Nat))))
    (hcap : l.logBodies = true) (hnn : 0 ≤ l.maxBodySize) :
    ∃ out, RoundTrip l next (some (.error ())) = some out ∧
      out.forwardedBody = some (.ok []) ∧
      LogEvent.warnReadRequestBody ∈ out.events ∧
      resultMatches out.result (next (some (.ok []))) := by
  have hlr : logRequest l (some (.error ())) =
      some (some (.ok []), [.warnReadRequestBody]) := by
    simp [logRequest, hcap, readBody]
  cases hnx : next (some (.ok [])) with
  | error e =>
    refine ⟨⟨some (.ok []), [.warnReadRequestBody, .errorRequestFailed], .err⟩,
      ?_, rfl, by simp, trivial⟩
    simp only [RoundTrip, hlr, Option.some_bind]
    rw [hnx]
    rfl
  | ok p =>
    obtain ⟨s, rb⟩ := p
    rcases logResponse_isSome l rb s hnn with ⟨q, hq⟩
    obtain ⟨nb, ev⟩ := q
    refine ⟨⟨some (.ok []), [.warnReadRequestBody] ++ ev, .resp s nb⟩,
      ?_, rfl, by simp, rfl⟩
    simp only [RoundTrip, hlr, Option.some_bind]
    rw [hnx]
    simp only [hq, Option.map_some]
    rfl

/-- Witness for C9: capture limit 5, transport returning a bodyless 204
response; the warning is emitted and the 204 propagates. -/
theorem C9_capture_read_failure_nonfatal_witness :
    ∃ out, RoundTrip (LRT.mk true 5)
        (fun _ => Except.ok ((204 : Int), (none : Option (Except Unit (List Nat)))))
        (some (Except.error ())) = some out ∧
      out.forwardedBody = some (Except.ok ([] : List Nat)) ∧
      LogEvent.warnReadRequestBody ∈ out.events ∧
      resultMatches out.result
        (Except.ok ((204 : Int), (none : Option (Except Unit (List Nat))))) :=
  C9_capture_read_failure_nonfatal (LRT.mk true 5)
    (fun _ => Except.ok ((204 : Int), (none : Option (Except Unit (List Nat)))))
    rfl (by decide)

end Logger
